import Mathlib

/-!
# Verification of the DonutChart component

A shallow embedding of `src/components/DonutChart.ts`. The chart logic is
parametrised over a linear ordered field `α` standing for the JS number type:
instantiating `α := ℝ` lets us state the `-π` scenarios literally, while
`α := ℚ` keeps everything executable for concrete evaluations.

Modelling conventions:
- PixiJS `Container`/`Graphics` objects are opaque `Nat` handles allocated in
  creation order (`nextHandle` is the allocator state); the set of children of
  `chartContainer` is the `scene` list.
- The gsap timeline is not simulated tick by tick: a pending transition stores
  the data captured by the timeline closures (`newSlices`, `oldSlices`, the
  per-slice tween entries), and `completeTimeline` performs exactly what the
  `onComplete` callback of `updateData` does.  Per-tick `onUpdate` redraws do
  not touch any of the state modelled here, mirroring the source where they
  only repaint a `Graphics` object.
- `Math.cos` / `Math.sin` appear only inside `drawDonutSlice`; the point-list
  construction is parametrised by the two functions `cosf`, `sinf`.
- The TS constructor merges `{startAngle: -π, endAngle: 0, euroValue: 0}`
  defaults into the options object; the embedding takes the merged options
  record (every caller in the repository passes all three fields explicitly).
-/

/-- A slice identity: the TS type `string | number`. -/
inductive SliceId where
  | str : String → SliceId
  | num : ℚ → SliceId
deriving DecidableEq

/-- The input item type `DonutChartData`; `id` is optional in the source. -/
structure DonutChartData (α : Type) where
  value : α
  color : α
  id : Option SliceId
deriving DecidableEq

/-- An input item after the constructor / `updateData` has ensured an id. -/
structure DataPoint (α : Type) where
  value : α
  color : α
  id : SliceId
deriving DecidableEq

/-- The registry entry type `SliceData` (one element of `this.slices`). -/
structure SliceData (α : Type) where
  container : Nat
  value : α
  startAngle : α
  endAngle : α
  id : SliceId
deriving DecidableEq

/-- One tween added to the gsap timeline by `updateData`: the captured
`animProps` start values, the target values and the fill color. -/
structure AnimEntry (α : Type) where
  sliceContainer : Nat
  fromStart : α
  fromEnd : α
  toStart : α
  toEnd : α
  color : α
deriving DecidableEq

/-- The data captured by the running timeline's closures in `updateData`:
`newSlices` and `oldSlices` (used by `onComplete`) and the tween entries. -/
structure PendingTransition (α : Type) where
  newSlices : List (SliceData α)
  oldSlices : List (SliceData α)
  entries : List (AnimEntry α)
deriving DecidableEq

/-- The options record `DonutChartOptions` after the constructor merged in the defaults. -/
structure DonutChartOptions (α : Type) where
  data : List (DonutChartData α)
  innerRadius : α
  outerRadius : α
  popDistance : α
  width : α
  height : α
  startAngle : α
  endAngle : α
  euroValue : α
deriving DecidableEq

/-- The observable state of a `DonutChart` instance. -/
structure ChartState (α : Type) where
  slices : List (SliceData α)
  optionsData : List (DataPoint α)
  innerRadius : α
  outerRadius : α
  popDistance : α
  width : α
  height : α
  startAngle : α
  endAngle : α
  euroValue : α
  valueText : Option α
  animating : Bool
  pending : Option (PendingTransition α)
  scene : List Nat
  nextHandle : Nat
deriving DecidableEq

/-- JS falsiness of the optional `id` field (`item.id || ...`): `undefined`,
the empty string and the number `0` are falsy. -/
def idFalsy : Option SliceId → Bool
  | none => true
  | some (SliceId.str s) => s == ""
  | some (SliceId.num q) => q == 0

/-- The positional fallback id `` `slice-${index}` ``. -/
def defaultId (i : Nat) : SliceId := SliceId.str ("slice-" ++ toString i)

/-- The id chosen by `item.id || ...`, the positional default for falsy ids. -/
def resolveId (oid : Option SliceId) (i : Nat) : SliceId :=
  if idFalsy oid then defaultId i else oid.getD (defaultId i)

/-- Helper for `ensureIds`, threading the index of `Array.prototype.map`. -/
def ensureIdsAux {α : Type} : List (DonutChartData α) → Nat → List (DataPoint α)
  | [], _ => []
  | d :: rest, i => ⟨d.value, d.color, resolveId d.id i⟩ :: ensureIdsAux rest (i + 1)

/-- The id-ensuring map over the input data, used both by the constructor and
by `updateData`. -/
def ensureIds {α : Type} (l : List (DonutChartData α)) : List (DataPoint α) :=
  ensureIdsAux l 0

/-- The dataset total, `data.reduce((sum, d) => sum + d.value, 0)`. -/
def totalValue {α : Type} [LinearOrderedField α] (l : List (DataPoint α)) : α :=
  (l.map (fun d => d.value)).sum

/-- One element of the `angleData` array computed by `updateData`. -/
structure AngleItem (α : Type) where
  id : SliceId
  value : α
  color : α
  percentage : α
deriving DecidableEq

/-- The `angleData` array of `updateData`: id, value, color and
`percentage = value / total` per item. -/
def angleData {α : Type} [LinearOrderedField α] (l : List (DataPoint α)) (total : α) :
    List (AngleItem α) :=
  l.map (fun item => ⟨item.id, item.value, item.color, item.value / total⟩)

/-- The `angleData.forEach` loop of `updateData`: accumulates `currentAngle`,
forces the last segment to end at `endA`, reuses the container of an existing
slice with the same id and otherwise allocates a fresh container and adds it
to the chart container (`sc`).  Returns the built `newSlices` together with
the new allocator state and scene. -/
def allocSlices {α : Type} [LinearOrderedField α]
    (data : List (DataPoint α)) (oldSlices : List (SliceData α)) (endA totalAngle : α) :
    List (AngleItem α) → α → Nat → List Nat → List (SliceData α) × Nat × List Nat
  | [], _, h, sc => ([], h, sc)
  | item :: rest, currentAngle, h, sc =>
    let endAngle := if rest.isEmpty then endA else currentAngle + item.percentage * totalAngle
    match data.find? (fun d2 => d2.id == item.id) with
    | none => allocSlices data oldSlices endA totalAngle rest endAngle h sc
    | some sliceData =>
      match oldSlices.find? (fun sl => sl.id == item.id) with
      | some existing =>
        let r := allocSlices data oldSlices endA totalAngle rest endAngle h sc
        (⟨existing.container, sliceData.value, currentAngle, endAngle, item.id⟩ :: r.1, r.2)
      | none =>
        let r := allocSlices data oldSlices endA totalAngle rest endAngle (h + 1) (sc ++ [h])
        (⟨h, sliceData.value, currentAngle, endAngle, item.id⟩ :: r.1, r.2)

/-- The tween color `dataItem?.color || 0xffffff` for slice `idv`. -/
def animColor {α : Type} [LinearOrderedField α] (data : List (DataPoint α)) (idv : SliceId) : α :=
  match data.find? (fun d2 => d2.id == idv) with
  | some dd => if dd.color = 0 then 0xffffff else dd.color
  | none => 0xffffff

/-- The tween entries added to the timeline by the second `forEach` of
`updateData` (`animProps` / `targetProps`). -/
def animEntries {α : Type} [LinearOrderedField α]
    (data : List (DataPoint α)) (oldSlices newSlices : List (SliceData α)) :
    List (AnimEntry α) :=
  newSlices.map (fun ns =>
    match oldSlices.find? (fun sl => sl.id == ns.id) with
    | some o => ⟨ns.container, o.startAngle, o.endAngle, ns.startAngle, ns.endAngle,
        animColor data ns.id⟩
    | none => ⟨ns.container, ns.startAngle, ns.startAngle, ns.startAngle, ns.endAngle,
        animColor data ns.id⟩)

/-- The method `DonutChart.updateData`: dropped when `this.animating`; otherwise ensures
ids, computes the new slice set, builds the timeline (stored as `pending`) and
stores the new options data.  `this.slices` itself is untouched until the
timeline completes. -/
def updateData {α : Type} [LinearOrderedField α]
    (s : ChartState α) (newData : List (DonutChartData α)) : ChartState α :=
  if s.animating then s
  else
    let data := ensureIds newData
    let oldSlices := s.slices
    let total := totalValue data
    let totalAngle := s.endAngle - s.startAngle
    let r := allocSlices data oldSlices s.endAngle totalAngle (angleData data total)
      s.startAngle s.nextHandle s.scene
    { s with
      optionsData := data,
      animating := true,
      pending := some ⟨r.1, oldSlices, animEntries data oldSlices r.1⟩,
      nextHandle := r.2.1,
      scene := r.2.2 }

/-- The `onComplete` callback of the timeline created by `updateData`:
replaces `this.slices` with `newSlices`, removes the container of every old
slice whose id is absent from `newSlices` from its parent, and clears
`this.animating`. -/
def completeTimeline {α : Type} [LinearOrderedField α] (s : ChartState α) : ChartState α :=
  match s.pending with
  | none => s
  | some p =>
    let removed := p.oldSlices.filter
      (fun old => (p.newSlices.find? (fun sl => sl.id == old.id)).isNone)
    { s with
      slices := p.newSlices,
      scene := s.scene.filter (fun c => !(removed.any (fun r => r.container == c))),
      animating := false,
      pending := none }

/-- The slice set an accepted `updateData` call will commit (the `newSlices`
captured by the timeline it created). -/
def targetSlices {α : Type} [LinearOrderedField α]
    (s : ChartState α) (d : List (DonutChartData α)) : List (SliceData α) :=
  match (updateData s d).pending with
  | some p => p.newSlices
  | none => []

/-- The `this.options.data.forEach` loop of `createChart`: same accumulation
as `updateData`, but every slice is freshly created. -/
def createSlices {α : Type} [LinearOrderedField α] (total endA totalAngle : α) :
    List (DataPoint α) → α → Nat → List Nat → List (SliceData α) × Nat × List Nat
  | [], _, h, sc => ([], h, sc)
  | d :: rest, startAngle, h, sc =>
    let sliceAngle := d.value / total * totalAngle
    let endAngle := if rest.isEmpty then endA else startAngle + sliceAngle
    let r := createSlices total endA totalAngle rest endAngle (h + 1) (sc ++ [h])
    (⟨h, d.value, startAngle, endAngle, d.id⟩ :: r.1, r.2)

/-- The `DonutChart` constructor (with options already merged over the
defaults): ensures ids, runs `createChart` and `createEuroText`. -/
def mkDonutChart {α : Type} [LinearOrderedField α] (opts : DonutChartOptions α) :
    ChartState α :=
  let data := ensureIds opts.data
  let total := totalValue data
  let totalAngle := opts.endAngle - opts.startAngle
  let r := createSlices total opts.endAngle totalAngle data opts.startAngle 0 []
  { slices := r.1,
    optionsData := data,
    innerRadius := opts.innerRadius,
    outerRadius := opts.outerRadius,
    popDistance := opts.popDistance,
    width := opts.width,
    height := opts.height,
    startAngle := opts.startAngle,
    endAngle := opts.endAngle,
    euroValue := opts.euroValue,
    valueText := some opts.euroValue,
    animating := false,
    pending := none,
    scene := r.2.2,
    nextHandle := r.2.1 }

/-- Number of iterations of `for (let a = startAngle; a <= endAngle; a += p)`
for a positive step `p` under exact arithmetic. -/
def arcSteps {α : Type} [LinearOrderedField α] [FloorRing α] (startA endA p : α) : Nat :=
  if startA ≤ endA then (⌊(endA - startA) / p⌋).toNat + 1 else 0

/-- The angles visited by the outer-arc (forward) loop of `drawDonutSlice`. -/
def ascAngles {α : Type} [LinearOrderedField α] [FloorRing α] (startA endA p : α) : List α :=
  (List.range (arcSteps startA endA p)).map (fun i => startA + (i : α) * p)

/-- The angles visited by the inner-arc (backward) loop of `drawDonutSlice`. -/
def descAngles {α : Type} [LinearOrderedField α] [FloorRing α] (startA endA p : α) : List α :=
  (List.range (arcSteps startA endA p)).map (fun i => endA - (i : α) * p)

/-- The point list accumulated by `drawDonutSlice`: outer arc forward, exact
end point, inner arc backward, exact start point.  `cosf`/`sinf` stand for
`Math.cos`/`Math.sin`. -/
def drawDonutSlicePoints {α : Type} [LinearOrderedField α] [FloorRing α]
    (cosf sinf : α → α) (innerR outerR startA endA p : α) : List (α × α) :=
  ((ascAngles startA endA p).map (fun a => (cosf a * outerR, sinf a * outerR)))
    ++ [(cosf endA * outerR, sinf endA * outerR)]
    ++ ((descAngles startA endA p).map (fun a => (cosf a * innerR, sinf a * innerR)))
    ++ [(cosf startA * innerR, sinf startA * innerR)]

/-- Cross product of two 2D points, the shoelace summand. -/
def cross2 {α : Type} [LinearOrderedField α] (a b : α × α) : α :=
  a.1 * b.2 - a.2 * b.1

/-- Twice the signed area of the closed polygon through `pts` (the outline
`moveTo`/`lineTo`/`closePath` draws). -/
def shoelace2 {α : Type} [LinearOrderedField α] (pts : List (α × α)) : α :=
  ((pts.zip (pts.rotate 1)).map (fun q => cross2 q.1 q.2)).sum

/-- Adjacent slices share a boundary: `segment[i].endAngle == segment[i+1].startAngle`. -/
def contiguousSlices {α : Type} : List (SliceData α) → Prop
  | a :: b :: rest => a.endAngle = b.startAngle ∧ contiguousSlices (b :: rest)
  | _ => True

/-- The sum of the angular spans of a slice list. -/
def spanSum {α : Type} [LinearOrderedField α] (l : List (SliceData α)) : α :=
  (l.map (fun sl => sl.endAngle - sl.startAngle)).sum

/-- Predicate `chainFrom a l`: the slices of `l` are consecutive, starting at angle `a`. -/
def chainFrom {α : Type} (a : α) : List (SliceData α) → Prop
  | [] => True
  | sl :: rest => sl.startAngle = a ∧ chainFrom sl.endAngle rest

/-- The end angle of the last slice of `l`, or `a` when `l` is empty. -/
def lastEnd {α : Type} (a : α) : List (SliceData α) → α
  | [] => a
  | sl :: rest => lastEnd sl.endAngle rest

/-- The slices of `res` correspond one-to-one to the items of `ds`: every
non-final slice spans `value / total` of the total angle, and the final slice
ends exactly at `endA`. -/
def propSpans {α : Type} [LinearOrderedField α] (total totalAngle endA : α) :
    List (DataPoint α) → List (SliceData α) → Prop
  | [], [] => True
  | [d], [sl] => sl.id = d.id ∧ sl.endAngle = endA
  | d :: rest, sl :: slRest =>
      sl.id = d.id ∧ sl.endAngle = sl.startAngle + d.value / total * totalAngle ∧
        propSpans total totalAngle endA rest slRest
  | _, _ => False

/-- Every slice's stored value comes from the first occurrence of its id in
`data` (the `data.find` of `updateData`). -/
def valsOk {α : Type} [LinearOrderedField α]
    (data : List (DataPoint α)) (res : List (SliceData α)) : Prop :=
  ∀ sl ∈ res, ∃ dd, data.find? (fun d2 => d2.id == sl.id) = some dd ∧ sl.value = dd.value

/-- The `allocSlices` call made by an accepted `updateData s d` (arguments
exactly as in `updateData`). -/
def newSlicesOf {α : Type} [LinearOrderedField α] (s : ChartState α)
    (d : List (DonutChartData α)) : List (SliceData α) × Nat × List Nat :=
  allocSlices (ensureIds d) s.slices s.endAngle (s.endAngle - s.startAngle)
    (angleData (ensureIds d) (totalValue (ensureIds d))) s.startAngle s.nextHandle s.scene

/-! ### Concrete instances used in scenario, witness and counterexample theorems.
All of them are over `ℚ`, where every definition evaluates. -/

/-- A small concrete chart: one slice with id `"x"`, angular range `[-1, 0]`. -/
def optsQ : DonutChartOptions ℚ :=
  ⟨[⟨30, 1, some (SliceId.str "x")⟩], 100, 160, 15, 600, 350, -1, 0, 5⟩

/-- The committed chart state built by the constructor from `optsQ`. -/
def chartQ : ChartState ℚ := mkDonutChart optsQ

/-- A dataset whose total value is `0`. -/
def zeroTotalData : List (DonutChartData ℚ) := [⟨0, 2, some (SliceId.str "y")⟩]

/-- A dataset with the id `"a"` duplicated (values 30 and 70). -/
def dupData : List (DonutChartData ℚ) :=
  [⟨30, 3, some (SliceId.str "a")⟩, ⟨70, 4, some (SliceId.str "a")⟩]

/-- Two items, ids `"a"` and `"b"`, values 30 and 70. -/
def abData : List (DonutChartData ℚ) :=
  [⟨30, 1, some (SliceId.str "a")⟩, ⟨70, 2, some (SliceId.str "b")⟩]

/-- Keeps `"x"` (value 40) and adds `"z"` (value 60). -/
def xzData : List (DonutChartData ℚ) :=
  [⟨40, 1, some (SliceId.str "x")⟩, ⟨60, 2, some (SliceId.str "z")⟩]

/-- Replaces `"x"` by `"z"` entirely. -/
def zData : List (DonutChartData ℚ) := [⟨40, 2, some (SliceId.str "z")⟩]

/-- State of `chartQ` while the transition for an accepted update is in flight. -/
def busyQ : ChartState ℚ := updateData chartQ [⟨50, 1, some (SliceId.str "x")⟩]

/-- Options violating `innerRadius < outerRadius` (`160 ≥ 100`). -/
def optsBad : DonutChartOptions ℚ :=
  ⟨[⟨30, 1, some (SliceId.str "x")⟩, ⟨70, 2, some (SliceId.str "y")⟩],
    160, 100, 15, 600, 350, -1, 0, 0⟩

/-- Items with falsy ids (`0`, `""`, missing) and one genuine id. -/
def falsyIdData : List (DonutChartData ℚ) :=
  [⟨1, 1, some (SliceId.num 0)⟩, ⟨2, 2, some (SliceId.str "")⟩, ⟨3, 3, none⟩,
    ⟨4, 4, some (SliceId.str "keep")⟩]

/-! ## Helper lemmas -/

lemma ensureIdsAux_length {α : Type} :
    ∀ (l : List (DonutChartData α)) (k : Nat), (ensureIdsAux l k).length = l.length
  | [], _ => rfl
  | _ :: rest, k => by simp [ensureIdsAux, ensureIdsAux_length rest (k + 1)]

lemma ensureIds_length {α : Type} (l : List (DonutChartData α)) :
    (ensureIds l).length = l.length :=
  ensureIdsAux_length l 0

lemma ensureIdsAux_get {α : Type} :
    ∀ (l : List (DonutChartData α)) (k i : Nat) (hi : i < l.length)
      (hj : i < (ensureIdsAux l k).length),
      (ensureIdsAux l k).get ⟨i, hj⟩ =
        ⟨(l.get ⟨i, hi⟩).value, (l.get ⟨i, hi⟩).color, resolveId (l.get ⟨i, hi⟩).id (k + i)⟩
  | d :: _, k, 0, _, _ => by simp [ensureIdsAux]
  | d :: rest, k, i + 1, hi, hj => by
      have hi' : i < rest.length := by simpa using hi
      have hj' : i < (ensureIdsAux rest (k + 1)).length := by
        simpa [ensureIdsAux_length] using hi'
      show (ensureIdsAux rest (k + 1)).get ⟨i, hj'⟩ = _
      rw [ensureIdsAux_get rest (k + 1) i hi' hj']
      have : k + 1 + i = k + (i + 1) := by omega
      simp [this]

lemma totalValue_nil_of_le_zero {α : Type} [LinearOrderedField α]
    (l : List (DataPoint α)) (h : 0 < totalValue l) : l ≠ [] := by
  intro hl
  rw [hl] at h
  simp [totalValue] at h

lemma find_self_isSome {α : Type} (d2 : DataPoint α) (l : List (DataPoint α)) (h : d2 ∈ l) :
    ((l.find? (fun x => x.id == d2.id)).isSome = true) := by
  simp only [List.find?_isSome]
  exact ⟨d2, h, by simp⟩

lemma angleData_isEmpty {α : Type} [LinearOrderedField α]
    (l : List (DataPoint α)) (total : α) : (angleData l total).isEmpty = l.isEmpty := by
  cases l <;> rfl

lemma angleData_cons {α : Type} [LinearOrderedField α]
    (d : DataPoint α) (rest : List (DataPoint α)) (total : α) :
    angleData (d :: rest) total =
      ⟨d.id, d.value, d.color, d.value / total⟩ :: angleData rest total := rfl

lemma angleData_nil {α : Type} [LinearOrderedField α] (total : α) :
    angleData ([] : List (DataPoint α)) total = [] := rfl

lemma angleData_eq_map {α : Type} [LinearOrderedField α]
    (l : List (DataPoint α)) (total : α) :
    angleData l total =
      l.map (fun item => ⟨item.id, item.value, item.color, item.value / total⟩) := rfl

attribute [irreducible] angleData

lemma allocSlices_spec {α : Type} [LinearOrderedField α]
    (data : List (DataPoint α)) (old : List (SliceData α)) (endA tA total : α) :
    ∀ (ds : List (DataPoint α)) (cur : α) (h : Nat) (sc : List Nat),
      (∀ d2 ∈ ds, ((data.find? (fun x => x.id == d2.id)).isSome = true)) →
      (allocSlices data old endA tA (angleData ds total) cur h sc).1.length = ds.length ∧
      chainFrom cur (allocSlices data old endA tA (angleData ds total) cur h sc).1 ∧
      propSpans total tA endA ds (allocSlices data old endA tA (angleData ds total) cur h sc).1 ∧
      valsOk data (allocSlices data old endA tA (angleData ds total) cur h sc).1
  | [], cur, h, sc, _ => by
    rw [angleData_nil]
    refine ⟨rfl, trivial, trivial, ?_⟩
    intro sl hsl
    simp [allocSlices] at hsl
  | [d], cur, h, sc, hmem => by
    obtain ⟨dd, hdd⟩ := Option.isSome_iff_exists.mp (hmem d (by simp))
    rw [angleData_cons]
    cases hold : old.find? (fun sl => sl.id == d.id) with
    | some existing =>
      simp only [allocSlices, angleData, List.map_nil, List.isEmpty_nil, if_true, hdd, hold]
      refine ⟨rfl, ⟨rfl, trivial⟩, ⟨rfl, rfl⟩, ?_⟩
      intro sl hsl
      rw [List.mem_singleton] at hsl
      subst hsl
      exact ⟨dd, hdd, rfl⟩
    | none =>
      simp only [allocSlices, angleData, List.map_nil, List.isEmpty_nil, if_true, hdd, hold]
      refine ⟨rfl, ⟨rfl, trivial⟩, ⟨rfl, rfl⟩, ?_⟩
      intro sl hsl
      rw [List.mem_singleton] at hsl
      subst hsl
      exact ⟨dd, hdd, rfl⟩
  | d :: r :: rs, cur, h, sc, hmem => by
    obtain ⟨dd, hdd⟩ := Option.isSome_iff_exists.mp (hmem d (by simp))
    have hmem' : ∀ d2 ∈ r :: rs, ((data.find? (fun x => x.id == d2.id)).isSome = true) :=
      fun d2 hd2 => hmem d2 (by simp [hd2])
    rw [angleData_cons]
    cases hold : old.find? (fun sl => sl.id == d.id) with
    | some existing =>
      obtain ⟨hlen, hchain, hspans, hvals⟩ :=
        allocSlices_spec data old endA tA total (r :: rs)
          (cur + d.value / total * tA) h sc hmem'
      simp only [allocSlices, hdd, hold, angleData_isEmpty, List.isEmpty_cons, if_false,
        Bool.false_eq_true]
      cases htail : (allocSlices data old endA tA (angleData (r :: rs) total)
          (cur + d.value / total * tA) h sc).1 with
      | nil => rw [htail] at hlen; simp at hlen
      | cons q qs =>
        rw [htail] at hlen hchain hspans hvals
        refine ⟨by simpa using hlen, ⟨rfl, hchain⟩, ⟨rfl, rfl, hspans⟩, ?_⟩
        intro sl hsl
        rcases List.mem_cons.mp hsl with hsl | hsl
        · subst hsl; exact ⟨dd, hdd, rfl⟩
        · exact hvals sl hsl
    | none =>
      obtain ⟨hlen, hchain, hspans, hvals⟩ :=
        allocSlices_spec data old endA tA total (r :: rs)
          (cur + d.value / total * tA) (h + 1) (sc ++ [h]) hmem'
      simp only [allocSlices, hdd, hold, angleData_isEmpty, List.isEmpty_cons, if_false,
        Bool.false_eq_true]
      cases htail : (allocSlices data old endA tA (angleData (r :: rs) total)
          (cur + d.value / total * tA) (h + 1) (sc ++ [h])).1 with
      | nil => rw [htail] at hlen; simp at hlen
      | cons q qs =>
        rw [htail] at hlen hchain hspans hvals
        refine ⟨by simpa using hlen, ⟨rfl, hchain⟩, ⟨rfl, rfl, hspans⟩, ?_⟩
        intro sl hsl
        rcases List.mem_cons.mp hsl with hsl | hsl
        · subst hsl; exact ⟨dd, hdd, rfl⟩
        · exact hvals sl hsl

lemma chainFrom_contiguous {α : Type} :
    ∀ (l : List (SliceData α)) (a : α), chainFrom a l → contiguousSlices l
  | [], _, _ => trivial
  | [_], _, _ => trivial
  | sl :: q :: rest, _, h =>
    ⟨(h.2.1).symm, chainFrom_contiguous (q :: rest) sl.endAngle h.2⟩

lemma spanSum_chain {α : Type} [LinearOrderedField α] :
    ∀ (l : List (SliceData α)) (a : α), chainFrom a l → spanSum l = lastEnd a l - a
  | [], a, _ => by simp [spanSum, lastEnd]
  | sl :: rest, a, h => by
    have hrec := spanSum_chain rest sl.endAngle h.2
    simp only [spanSum, List.map_cons, List.sum_cons, lastEnd] at *
    rw [hrec, h.1]
    ring

lemma propSpans_lastEnd {α : Type} [LinearOrderedField α] (total tA endA : α) :
    ∀ (ds : List (DataPoint α)) (res : List (SliceData α)) (a : α),
      propSpans total tA endA ds res → ds ≠ [] → lastEnd a res = endA
  | [], _, _, _, hne => absurd rfl hne
  | [d], res, a, hp, _ => by
    cases res with
    | nil => simp [propSpans] at hp
    | cons sl rest2 =>
      cases rest2 with
      | nil => simpa [lastEnd] using hp.2
      | cons q qs => simp [propSpans] at hp
  | d :: r :: rs, res, a, hp, _ => by
    cases res with
    | nil => simp [propSpans] at hp
    | cons sl slRest =>
      have hrec := propSpans_lastEnd total tA endA (r :: rs) slRest sl.endAngle hp.2.2 (by simp)
      simpa [lastEnd] using hrec

lemma createSlices_length {α : Type} [LinearOrderedField α] (total endA tA : α) :
    ∀ (ds : List (DataPoint α)) (cur : α) (h : Nat) (sc : List Nat),
      (createSlices total endA tA ds cur h sc).1.length = ds.length
  | [], _, _, _ => rfl
  | d :: rest, cur, h, sc => by
    simp [createSlices, createSlices_length total endA tA rest]

lemma allocSlices_scene_mem {α : Type} [LinearOrderedField α]
    (data : List (DataPoint α)) (old : List (SliceData α)) (endA tA : α) :
    ∀ (items : List (AngleItem α)) (cur : α) (h : Nat) (sc : List Nat) (x : Nat),
      x ∈ sc → x ∈ (allocSlices data old endA tA items cur h sc).2.2
  | [], _, _, _, _, hx => hx
  | item :: rest, cur, h, sc, x, hx => by
    cases hfd : data.find? (fun d2 => d2.id == item.id) with
    | none =>
      simpa [allocSlices, hfd] using
        allocSlices_scene_mem data old endA tA rest
          (if rest.isEmpty then endA else cur + item.percentage * tA) h sc x hx
    | some dd =>
      cases hold : old.find? (fun sl => sl.id == item.id) with
      | some existing =>
        simpa [allocSlices, hfd, hold] using
          allocSlices_scene_mem data old endA tA rest
            (if rest.isEmpty then endA else cur + item.percentage * tA) h sc x hx
      | none =>
        simpa [allocSlices, hfd, hold] using
          allocSlices_scene_mem data old endA tA rest
            (if rest.isEmpty then endA else cur + item.percentage * tA) (h + 1) (sc ++ [h]) x
            (List.mem_append_left _ hx)

lemma allocSlices_find_none {α : Type} [LinearOrderedField α]
    (data : List (DataPoint α)) (old : List (SliceData α)) (endA tA : α) (idv : SliceId) :
    ∀ (items : List (AngleItem α)) (cur : α) (h : Nat) (sc : List Nat),
      (∀ it ∈ items, it.id ≠ idv) →
      (allocSlices data old endA tA items cur h sc).1.find? (fun q => q.id == idv) = none
  | [], _, _, _, _ => rfl
  | item :: rest, cur, h, sc, hmem => by
    have hne : item.id ≠ idv := hmem item (by simp)
    have hmem' : ∀ it ∈ rest, it.id ≠ idv := fun it ht => hmem it (by simp [ht])
    cases hfd : data.find? (fun d2 => d2.id == item.id) with
    | none =>
      simpa [allocSlices, hfd] using
        allocSlices_find_none data old endA tA idv rest
          (if rest.isEmpty then endA else cur + item.percentage * tA) h sc hmem'
    | some dd =>
      cases hold : old.find? (fun sl => sl.id == item.id) with
      | some existing =>
        simp only [allocSlices, hfd, hold]
        rw [List.find?_cons_of_neg _ (by simpa using hne)]
        exact allocSlices_find_none data old endA tA idv rest
          (if rest.isEmpty then endA else cur + item.percentage * tA) h sc hmem'
      | none =>
        simp only [allocSlices, hfd, hold]
        rw [List.find?_cons_of_neg _ (by simpa using hne)]
        exact allocSlices_find_none data old endA tA idv rest
          (if rest.isEmpty then endA else cur + item.percentage * tA) (h + 1) (sc ++ [h]) hmem'

lemma allocSlices_find_container {α : Type} [LinearOrderedField α]
    (data : List (DataPoint α)) (old : List (SliceData α)) (endA tA : α)
    (idv : SliceId) (o : SliceData α) (ho : old.find? (fun sl => sl.id == idv) = some o) :
    ∀ (items : List (AngleItem α)) (cur : α) (h : Nat) (sc : List Nat),
      (∀ it ∈ items, ((data.find? (fun x => x.id == it.id)).isSome = true)) →
      (∃ it ∈ items, it.id = idv) →
      ∃ sl, ((allocSlices data old endA tA items cur h sc).1.find? (fun q => q.id == idv)
          = some sl) ∧ sl.container = o.container
  | [], _, _, _, _, hex => absurd hex (by simp)
  | item :: rest, cur, h, sc, hmem, hex => by
    obtain ⟨dd, hdd⟩ := Option.isSome_iff_exists.mp (hmem item (by simp))
    by_cases hid : item.id = idv
    · have hold : old.find? (fun sl => sl.id == item.id) = some o := by rw [hid]; exact ho
      simp only [allocSlices, hdd, hold]
      exact ⟨_, List.find?_cons_of_pos _ (by simp [hid]), rfl⟩
    · have hmem' : ∀ it ∈ rest, ((data.find? (fun x => x.id == it.id)).isSome = true) :=
        fun it ht => hmem it (by simp [ht])
      have hex' : ∃ it ∈ rest, it.id = idv := by
        obtain ⟨it, hit, hiteq⟩ := hex
        rcases List.mem_cons.mp hit with h1 | h1
        · subst h1; exact absurd hiteq hid
        · exact ⟨it, h1, hiteq⟩
      cases hold : old.find? (fun sl => sl.id == item.id) with
      | some existing =>
        simp only [allocSlices, hdd, hold]
        rw [List.find?_cons_of_neg _ (by simpa using hid)]
        exact allocSlices_find_container data old endA tA idv o ho rest
          (if rest.isEmpty then endA else cur + item.percentage * tA) h sc hmem' hex'
      | none =>
        simp only [allocSlices, hdd, hold]
        rw [List.find?_cons_of_neg _ (by simpa using hid)]
        exact allocSlices_find_container data old endA tA idv o ho rest
          (if rest.isEmpty then endA else cur + item.percentage * tA) (h + 1) (sc ++ [h])
          hmem' hex'

lemma angleData_mem_isSome {α : Type} [LinearOrderedField α]
    (l : List (DataPoint α)) (total : α) (it : AngleItem α) (h : it ∈ angleData l total) :
    ((l.find? (fun x => x.id == it.id)).isSome = true) := by
  rw [angleData_eq_map] at h
  obtain ⟨dp, hdp, rfl⟩ := List.mem_map.mp h
  exact find_self_isSome dp l hdp

lemma angleData_exists_id {α : Type} [LinearOrderedField α]
    (l : List (DataPoint α)) (total : α) (idv : SliceId) (h : ∃ dp ∈ l, dp.id = idv) :
    ∃ it ∈ angleData l total, it.id = idv := by
  obtain ⟨dp, hdp, heq⟩ := h
  refine ⟨⟨dp.id, dp.value, dp.color, dp.value / total⟩, ?_, heq⟩
  rw [angleData_eq_map]
  exact List.mem_map.mpr ⟨dp, hdp, rfl⟩

lemma angleData_forall_ne {α : Type} [LinearOrderedField α]
    (l : List (DataPoint α)) (total : α) (idv : SliceId) (h : ∀ dp ∈ l, dp.id ≠ idv) :
    ∀ it ∈ angleData l total, it.id ≠ idv := by
  intro it hit
  rw [angleData_eq_map] at hit
  obtain ⟨dp, hdp, rfl⟩ := List.mem_map.mp hit
  exact h dp hdp

lemma updateData_idle {α : Type} [LinearOrderedField α] (s : ChartState α)
    (d : List (DonutChartData α)) (h : s.animating = false) :
    updateData s d =
      { s with
        optionsData := ensureIds d,
        animating := true,
        pending := some ⟨(newSlicesOf s d).1, s.slices,
          animEntries (ensureIds d) s.slices (newSlicesOf s d).1⟩,
        nextHandle := (newSlicesOf s d).2.1,
        scene := (newSlicesOf s d).2.2 } := by
  simp [updateData, newSlicesOf, h]

lemma completeTimeline_pending {α : Type} [LinearOrderedField α] (s : ChartState α)
    (p : PendingTransition α) (h : s.pending = some p) :
    completeTimeline s =
      { s with
        slices := p.newSlices,
        scene := s.scene.filter (fun c =>
          !((p.oldSlices.filter
              (fun old => (p.newSlices.find? (fun sl => sl.id == old.id)).isNone)).any
            (fun r2 => r2.container == c))),
        animating := false,
        pending := none } := by
  simp [completeTimeline, h]

lemma targetSlices_idle {α : Type} [LinearOrderedField α] (s : ChartState α)
    (d : List (DonutChartData α)) (h : s.animating = false) :
    targetSlices s d = (newSlicesOf s d).1 := by
  rw [targetSlices, updateData_idle s d h]

lemma committed_slices_idle {α : Type} [LinearOrderedField α] (s : ChartState α)
    (d : List (DonutChartData α)) (h : s.animating = false) :
    (completeTimeline (updateData s d)).slices = (newSlicesOf s d).1 := by
  rw [updateData_idle s d h, completeTimeline_pending _ _ rfl]

lemma arcSteps_self {α : Type} [LinearOrderedField α] [FloorRing α] (s p : α) :
    arcSteps s s p = 1 := by
  simp [arcSteps]

/-! ## Claim theorems -/

/-- Claim C4: a call to `updateData` made while a transition is in progress
(`animating = true`) is dropped with no observable effect: the state —
including the in-flight tween targets stored in `pending`, the slice
registry and the stored options data — is unchanged, and the eventual
committed state is identical to what it would be without the call. -/
theorem C4_drop_while_transitioning {α : Type} [LinearOrderedField α] (s : ChartState α)
    (d : List (DonutChartData α)) (h : s.animating = true) :
    updateData s d = s ∧ completeTimeline (updateData s d) = completeTimeline s := by
  have h1 : updateData s d = s := by simp [updateData, h]
  exact ⟨h1, by rw [h1]⟩

theorem C4_witness :
    updateData busyQ abData = busyQ ∧
    completeTimeline (updateData busyQ abData) = completeTimeline busyQ :=
  C4_drop_while_transitioning busyQ abData rfl

/-- Claim C7: for any radii and any positive precision, the point list built by
`drawDonutSlice` for a degenerate arc (`startAngle == endAngle`) is total (no
error) and consists of two coincident point pairs on the same ray — a
zero-area polygon: its shoelace signed area is `0`, so it renders nothing. -/
theorem C7_degenerate_arc {α : Type} [LinearOrderedField α] [FloorRing α]
    (cosf sinf : α → α) (innerR outerR startA p : α) (hp : 0 < p) :
    drawDonutSlicePoints cosf sinf innerR outerR startA startA p =
      [(cosf startA * outerR, sinf startA * outerR),
       (cosf startA * outerR, sinf startA * outerR),
       (cosf startA * innerR, sinf startA * innerR),
       (cosf startA * innerR, sinf startA * innerR)] ∧
    shoelace2 (drawDonutSlicePoints cosf sinf innerR outerR startA startA p) = 0 := by
  have hpts : drawDonutSlicePoints cosf sinf innerR outerR startA startA p =
      [(cosf startA * outerR, sinf startA * outerR),
       (cosf startA * outerR, sinf startA * outerR),
       (cosf startA * innerR, sinf startA * innerR),
       (cosf startA * innerR, sinf startA * innerR)] := by
    have hasc : ascAngles startA startA p = [startA] := by
      simp [ascAngles, arcSteps_self, show List.range 1 = [0] from rfl]
    have hdesc : descAngles startA startA p = [startA] := by
      simp [descAngles, arcSteps_self, show List.range 1 = [0] from rfl]
    simp [drawDonutSlicePoints, hasc, hdesc]
  refine ⟨hpts, ?_⟩
  rw [hpts]
  simp only [shoelace2, List.rotate_cons_succ, List.rotate_zero, List.nil_append,
    List.cons_append, List.zip_cons_cons, List.zip_nil_right, List.zip_nil_left,
    List.map_cons, List.map_nil, List.sum_cons, List.sum_nil, cross2]
  ring

theorem C7_witness :
    drawDonutSlicePoints (fun x : ℚ => x) (fun x => x) 100 160 (-1) (-1) (3 / 100) =
      [(-160, -160), (-160, -160), (-100, -100), (-100, -100)] ∧
    shoelace2 (drawDonutSlicePoints (fun x : ℚ => x) (fun x => x) 100 160 (-1) (-1) (3 / 100))
      = 0 := by
  have h := C7_degenerate_arc (fun x : ℚ => x) (fun x => x) 100 160 (-1) (3 / 100)
    (by norm_num)
  simpa using h

/-- Claim C8, amended: the constructor performs no config validation.  Even
when `innerRadius ≥ outerRadius` or `startAngle == endAngle`, construction
succeeds and fully initialises the chart: one slice entry per data item, the
euro label text, and an idle transition engine.  No `InvalidConfig` failure
path exists in the code. -/
theorem C8_amended_no_validation {α : Type} [LinearOrderedField α]
    (opts : DonutChartOptions α)
    (hbad : opts.outerRadius ≤ opts.innerRadius ∨ opts.startAngle = opts.endAngle) :
    (mkDonutChart opts).slices.length = opts.data.length ∧
    (mkDonutChart opts).valueText = some opts.euroValue ∧
    (mkDonutChart opts).animating = false ∧
    (mkDonutChart opts).pending = none := by
  refine ⟨?_, rfl, rfl, rfl⟩
  show (createSlices (totalValue (ensureIds opts.data)) opts.endAngle
      (opts.endAngle - opts.startAngle) (ensureIds opts.data) opts.startAngle 0 []).1.length = _
  rw [createSlices_length, ensureIds_length]

theorem C8_amended_witness :
    (mkDonutChart optsBad).slices.length = optsBad.data.length ∧
    (mkDonutChart optsBad).valueText = some optsBad.euroValue ∧
    (mkDonutChart optsBad).animating = false ∧
    (mkDonutChart optsBad).pending = none :=
  C8_amended_no_validation optsBad (Or.inl (by norm_num [optsBad]))

/-- Claim C8, counterexample: `optsBad` has `innerRadius = 160 ≥ 100 =
outerRadius`, yet construction does not fail: the chart is fully initialised
with both slice entries created and the text label present — refuting the
claim that such a configuration fails fast with `InvalidConfig` and creates
nothing. -/
theorem C8_counterexample :
    optsBad.outerRadius ≤ optsBad.innerRadius ∧
    (mkDonutChart optsBad).slices.length = 2 ∧
    (mkDonutChart optsBad).valueText = some 0 ∧
    (mkDonutChart optsBad).scene = [0, 1] := by
  refine ⟨by norm_num [optsBad], ?_, rfl, rfl⟩
  show (createSlices (totalValue (ensureIds optsBad.data)) optsBad.endAngle
      (optsBad.endAngle - optsBad.startAngle) (ensureIds optsBad.data)
      optsBad.startAngle 0 []).1.length = _
  rw [createSlices_length, ensureIds_length]
  rfl

/-- Claim C10: id assignment replaces every JS-falsy id — a missing id, the
number `0` and the empty string — by the positional id `"slice-<index>"`;
every other supplied id is kept unchanged. -/
theorem C10_falsy_id_reassignment {α : Type} (l : List (DonutChartData α)) (i : Nat)
    (hi : i < l.length) (hj : i < (ensureIds l).length) :
    (((l.get ⟨i, hi⟩).id = none ∨ (l.get ⟨i, hi⟩).id = some (SliceId.str "") ∨
        (l.get ⟨i, hi⟩).id = some (SliceId.num 0)) →
      ((ensureIds l).get ⟨i, hj⟩).id = SliceId.str ("slice-" ++ toString i)) ∧
    (∀ x : SliceId, (l.get ⟨i, hi⟩).id = some x → x ≠ SliceId.str "" → x ≠ SliceId.num 0 →
      ((ensureIds l).get ⟨i, hj⟩).id = x) := by
  have hget : (ensureIds l).get ⟨i, hj⟩ =
      ⟨(l.get ⟨i, hi⟩).value, (l.get ⟨i, hi⟩).color, resolveId (l.get ⟨i, hi⟩).id i⟩ := by
    have h0 := ensureIdsAux_get l 0 i hi (by simpa [ensureIds] using hj)
    simpa [ensureIds] using h0
  rw [hget]
  constructor
  · rintro (h | h | h) <;> rw [h] <;> simp [resolveId, idFalsy, defaultId]
  · intro x hx h1 h2
    rw [hx]
    cases x with
    | str s =>
      have hs : ¬s = "" := fun he => h1 (by rw [he])
      simp [resolveId, idFalsy, hs]
    | num q =>
      have hq : ¬q = 0 := fun he => h2 (by rw [he])
      simp [resolveId, idFalsy, hq]

theorem C10_witness :
    ((ensureIds falsyIdData).get ⟨0, by norm_num [ensureIds_length, falsyIdData]⟩).id
        = SliceId.str ("slice-" ++ toString 0) ∧
    ((ensureIds falsyIdData).get ⟨3, by norm_num [ensureIds_length, falsyIdData]⟩).id
        = SliceId.str "keep" := by
  constructor
  · exact (C10_falsy_id_reassignment falsyIdData 0 (by norm_num [falsyIdData])
      (by norm_num [ensureIds_length, falsyIdData])).1 (Or.inr (Or.inr rfl))
  · exact (C10_falsy_id_reassignment falsyIdData 3 (by norm_num [falsyIdData])
      (by norm_num [ensureIds_length, falsyIdData])).2 (SliceId.str "keep") rfl
      (by decide) (by decide)

/-- Claim C1: for every dataset with positive total value accepted from the idle
state, the angle computation partitions `[startAngle, endAngle]` into one
slice per data item, contiguously from `startAngle`; every non-final slice
spans `value / total` of the range, and the final slice's end is set to
`endAngle` exactly.  In the spec's scenario (range `[-π, 0]`, values 30/70),
slice `a` spans `[-π, -0.7π]` and slice `b` spans `[-0.7π, 0]`. -/
theorem C1_proportional_partition :
    (∀ (α : Type) [LinearOrderedField α], ∀ (s : ChartState α)
        (d : List (DonutChartData α)),
        s.animating = false → 0 < totalValue (ensureIds d) →
        (targetSlices s d).length = (ensureIds d).length ∧
        chainFrom s.startAngle (targetSlices s d) ∧
        propSpans (totalValue (ensureIds d)) (s.endAngle - s.startAngle) s.endAngle
          (ensureIds d) (targetSlices s d)) ∧
    (mkDonutChart (⟨[⟨30, 1, some (SliceId.str "a")⟩, ⟨70, 2, some (SliceId.str "b")⟩],
        100, 160, 15, 600, 350, -Real.pi, 0, 0⟩ : DonutChartOptions ℝ)).slices =
      [⟨0, 30, -Real.pi, -(7 / 10) * Real.pi, SliceId.str "a"⟩,
       ⟨1, 70, -(7 / 10) * Real.pi, 0, SliceId.str "b"⟩] := by
  constructor
  · intro α inst s d hidle htot
    rw [targetSlices_idle s d hidle]
    obtain ⟨hlen, hchain, hspans, _⟩ :=
      allocSlices_spec (ensureIds d) s.slices s.endAngle (s.endAngle - s.startAngle)
        (totalValue (ensureIds d)) (ensureIds d) s.startAngle s.nextHandle s.scene
        (fun d2 hd2 => find_self_isSome d2 (ensureIds d) hd2)
    exact ⟨hlen, hchain, hspans⟩
  · simp only [mkDonutChart, ensureIds, ensureIdsAux, totalValue, List.map_cons,
      List.map_nil, List.sum_cons, List.sum_nil, createSlices, List.isEmpty_cons,
      List.isEmpty_nil]
    norm_num [resolveId, idFalsy, defaultId]
    constructor <;>
      exact ⟨by ring, fun hcon => absurd hcon (by decide)⟩

lemma newSlicesOf_spec {α : Type} [LinearOrderedField α] (s : ChartState α)
    (d : List (DonutChartData α)) :
    (newSlicesOf s d).1.length = (ensureIds d).length ∧
    chainFrom s.startAngle (newSlicesOf s d).1 ∧
    propSpans (totalValue (ensureIds d)) (s.endAngle - s.startAngle) s.endAngle
      (ensureIds d) (newSlicesOf s d).1 ∧
    valsOk (ensureIds d) (newSlicesOf s d).1 :=
  allocSlices_spec (ensureIds d) s.slices s.endAngle (s.endAngle - s.startAngle)
    (totalValue (ensureIds d)) (ensureIds d) s.startAngle s.nextHandle s.scene
    (fun d2 hd2 => find_self_isSome d2 (ensureIds d) hd2)

theorem C1_witness :
    (targetSlices chartQ abData).length = (ensureIds abData).length ∧
    chainFrom chartQ.startAngle (targetSlices chartQ abData) ∧
    propSpans (totalValue (ensureIds abData)) (chartQ.endAngle - chartQ.startAngle)
      chartQ.endAngle (ensureIds abData) (targetSlices chartQ abData) :=
  C1_proportional_partition.1 ℚ chartQ abData rfl
    (by norm_num [totalValue, ensureIds, ensureIdsAux, abData])

/-- Claim C2: after an accepted update (total > 0, requested from the idle
state) commits, the stored slices are exactly contiguous
(`segment[i].endAngle == segment[i+1].startAngle`) and the sum of their
spans equals `endAngle − startAngle` of the config within `1e-9`. -/
theorem C2_committed_invariants {α : Type} [LinearOrderedField α] (s : ChartState α)
    (d : List (DonutChartData α)) (hidle : s.animating = false)
    (htot : 0 < totalValue (ensureIds d)) :
    contiguousSlices (completeTimeline (updateData s d)).slices ∧
    |spanSum (completeTimeline (updateData s d)).slices - (s.endAngle - s.startAngle)|
        ≤ 1 / 1000000000 := by
  obtain ⟨hlen, hchain, hspans, _⟩ := newSlicesOf_spec s d
  rw [committed_slices_idle s d hidle]
  refine ⟨chainFrom_contiguous _ s.startAngle hchain, ?_⟩
  have hne : ensureIds d ≠ [] := totalValue_nil_of_le_zero (ensureIds d) htot
  have hlast : lastEnd s.startAngle (newSlicesOf s d).1 = s.endAngle :=
    propSpans_lastEnd _ _ _ (ensureIds d) _ s.startAngle hspans hne
  rw [spanSum_chain _ s.startAngle hchain, hlast]
  norm_num

theorem C2_witness :
    contiguousSlices (completeTimeline (updateData chartQ abData)).slices ∧
    |spanSum (completeTimeline (updateData chartQ abData)).slices -
        (chartQ.endAngle - chartQ.startAngle)| ≤ 1 / 1000000000 :=
  C2_committed_invariants chartQ abData rfl
    (by norm_num [totalValue, ensureIds, ensureIdsAux, abData])

/-- Claim C9, amended: a duplicated id is not collapsed to its last
occurrence.  Every occurrence produces its own committed slice entry with its
own positional angular span, and the value stored in each such entry comes
from the *first* occurrence of that id in the dataset (`data.find`); the call
is not a hard failure (the computation is total). -/
theorem C9_amended_first_occurrence_wins {α : Type} [LinearOrderedField α]
    (s : ChartState α) (d : List (DonutChartData α)) (hidle : s.animating = false) :
    (targetSlices s d).length = (ensureIds d).length ∧
    propSpans (totalValue (ensureIds d)) (s.endAngle - s.startAngle) s.endAngle
      (ensureIds d) (targetSlices s d) ∧
    valsOk (ensureIds d) (targetSlices s d) := by
  rw [targetSlices_idle s d hidle]
  obtain ⟨h1, _, h3, h4⟩ := newSlicesOf_spec s d
  exact ⟨h1, h3, h4⟩

theorem C9_amended_witness :
    (targetSlices chartQ dupData).length = (ensureIds dupData).length ∧
    propSpans (totalValue (ensureIds dupData)) (chartQ.endAngle - chartQ.startAngle)
      chartQ.endAngle (ensureIds dupData) (targetSlices chartQ dupData) ∧
    valsOk (ensureIds dupData) (targetSlices chartQ dupData) :=
  C9_amended_first_occurrence_wins chartQ dupData rfl

/-- Claim C9, counterexample: with the duplicated dataset
`[{id:"a", value:30}, {id:"a", value:70}]` accepted from `chartQ`, the
committed registry holds *two* entries for `"a"`, and every one of them
carries the value `30` of the first occurrence — no committed slice carries
the last duplicate's value `70`, refuting "last occurrence wins". -/
theorem C9_counterexample :
    (ensureIds dupData).length = 2 ∧
    (completeTimeline (updateData chartQ dupData)).slices =
      [⟨1, 30, -1, -(7 / 10), SliceId.str "a"⟩,
       ⟨2, 30, -(7 / 10), 0, SliceId.str "a"⟩] ∧
    ∀ sl ∈ (completeTimeline (updateData chartQ dupData)).slices, sl.value ≠ 70 := by
  have hcommit : (completeTimeline (updateData chartQ dupData)).slices =
      [⟨1, 30, -1, -(7 / 10), SliceId.str "a"⟩,
       ⟨2, 30, -(7 / 10), 0, SliceId.str "a"⟩] := by
    rw [committed_slices_idle chartQ dupData rfl]
    simp +decide [newSlicesOf, chartQ, optsQ, mkDonutChart, createSlices, ensureIds,
      ensureIdsAux, resolveId, idFalsy, defaultId, totalValue, angleData_eq_map,
      allocSlices, dupData]
    norm_num
  refine ⟨rfl, hcommit, ?_⟩
  rw [hcommit]
  intro sl hsl
  rcases List.mem_cons.mp hsl with rfl | hsl
  · norm_num
  · rcases List.mem_cons.mp hsl with rfl | hsl
    · norm_num
    · cases hsl

/-- Claim C3, amended: a dataset with total value ≤ 0 is *not* rejected —
`updateData` performs no validation of the total.  From the idle state the
call is accepted like any other: the state machine enters `Transitioning`,
the stored options data are replaced by the new dataset, a timeline with the
newly computed slice set is started, and on completion that slice set
replaces the previous committed registry.  No `InvalidInput` error path
exists in the code. -/
theorem C3_amended_not_rejected {α : Type} [LinearOrderedField α] (s : ChartState α)
    (d : List (DonutChartData α)) (hidle : s.animating = false)
    (htot : totalValue (ensureIds d) ≤ 0) :
    (updateData s d).animating = true ∧
    (updateData s d).optionsData = ensureIds d ∧
    (updateData s d).pending = some ⟨(newSlicesOf s d).1, s.slices,
      animEntries (ensureIds d) s.slices (newSlicesOf s d).1⟩ ∧
    (completeTimeline (updateData s d)).slices = (newSlicesOf s d).1 := by
  refine ⟨?_, ?_, ?_, committed_slices_idle s d hidle⟩ <;>
    rw [updateData_idle s d hidle]

theorem C3_amended_witness :
    (updateData chartQ zeroTotalData).animating = true ∧
    (updateData chartQ zeroTotalData).optionsData = ensureIds zeroTotalData ∧
    (updateData chartQ zeroTotalData).pending =
      some ⟨(newSlicesOf chartQ zeroTotalData).1, chartQ.slices,
        animEntries (ensureIds zeroTotalData) chartQ.slices
          (newSlicesOf chartQ zeroTotalData).1⟩ ∧
    (completeTimeline (updateData chartQ zeroTotalData)).slices =
      (newSlicesOf chartQ zeroTotalData).1 :=
  C3_amended_not_rejected chartQ zeroTotalData rfl
    (by norm_num [totalValue, ensureIds, ensureIdsAux, zeroTotalData])

/-- Claim C3, counterexample: `zeroTotalData` has total value `0 ≤ 0`, yet the
call on `chartQ` is not rejected and does mutate: the state starts
transitioning, the stored options data change, and once the timeline
completes the previously committed slice set is replaced — refuting
"rejected before any mutation, previous committed state retained". -/
theorem C3_counterexample :
    totalValue (ensureIds zeroTotalData) ≤ 0 ∧
    (updateData chartQ zeroTotalData).animating = true ∧
    (updateData chartQ zeroTotalData).optionsData ≠ chartQ.optionsData ∧
    (completeTimeline (updateData chartQ zeroTotalData)).slices ≠ chartQ.slices := by
  have hopts : (updateData chartQ zeroTotalData).optionsData =
      [⟨0, 2, SliceId.str "y"⟩] := by
    rw [updateData_idle chartQ zeroTotalData rfl]
    simp +decide [ensureIds, ensureIdsAux, resolveId, idFalsy, zeroTotalData]
  have hcq : chartQ.optionsData = [⟨30, 1, SliceId.str "x"⟩] := by
    simp +decide [chartQ, optsQ, mkDonutChart, ensureIds, ensureIdsAux, resolveId, idFalsy]
  have hslc : (completeTimeline (updateData chartQ zeroTotalData)).slices =
      [⟨1, 0, -1, 0, SliceId.str "y"⟩] := by
    rw [committed_slices_idle chartQ zeroTotalData rfl]
    simp +decide [newSlicesOf, chartQ, optsQ, mkDonutChart, createSlices, ensureIds,
      ensureIdsAux, resolveId, idFalsy, totalValue, angleData_eq_map, allocSlices,
      zeroTotalData]
  have hcs : chartQ.slices = [⟨0, 30, -1, 0, SliceId.str "x"⟩] := by
    simp +decide [chartQ, optsQ, mkDonutChart, createSlices, ensureIds, ensureIdsAux,
      resolveId, idFalsy, totalValue]
  refine ⟨by norm_num [totalValue, ensureIds, ensureIdsAux, zeroTotalData], rfl, ?_, ?_⟩
  · rw [hopts, hcq]
    norm_num
  · rw [hslc, hcs]
    norm_num

lemma committed_scene_idle {α : Type} [LinearOrderedField α] (s : ChartState α)
    (d : List (DonutChartData α)) (h : s.animating = false) :
    (completeTimeline (updateData s d)).scene =
      ((newSlicesOf s d).2.2).filter (fun c =>
        !((s.slices.filter (fun old =>
            ((newSlicesOf s d).1.find? (fun sl => sl.id == old.id)).isNone)).any
          (fun r2 => r2.container == c))) := by
  rw [updateData_idle s d h, completeTimeline_pending _ _ rfl]

/-- Claim C5: identity continuity — if an id is present both in the committed
registry and (after id assignment) in the newly accepted dataset, then the
slice committed for that id keeps the very same owner container handle, and
that container is still attached to the scene after the transition commits
(given that the committed registry's containers are distinct, as construction
and updates guarantee). -/
theorem C5_owner_handle_continuity {α : Type} [LinearOrderedField α] (s : ChartState α)
    (d : List (DonutChartData α)) (idv : SliceId) (o : SliceData α)
    (hidle : s.animating = false)
    (hold : s.slices.find? (fun sl => sl.id == idv) = some o)
    (hnew : ∃ dp ∈ ensureIds d, dp.id = idv)
    (hinj : s.slices.Pairwise (fun a b => a.container ≠ b.container))
    (hscene : o.container ∈ s.scene) :
    (∃ sl, (completeTimeline (updateData s d)).slices.find? (fun q => q.id == idv)
        = some sl ∧ sl.container = o.container) ∧
    o.container ∈ (completeTimeline (updateData s d)).scene := by
  obtain ⟨sl, hfind, hcont⟩ :=
    allocSlices_find_container (ensureIds d) s.slices s.endAngle
      (s.endAngle - s.startAngle) idv o hold
      (angleData (ensureIds d) (totalValue (ensureIds d))) s.startAngle s.nextHandle s.scene
      (fun it hit => angleData_mem_isSome (ensureIds d) _ it hit)
      (angleData_exists_id (ensureIds d) _ idv hnew)
  have hfind' : (newSlicesOf s d).1.find? (fun q => q.id == idv) = some sl := hfind
  constructor
  · rw [committed_slices_idle s d hidle]
    exact ⟨sl, hfind', hcont⟩
  · rw [committed_scene_idle s d hidle]
    refine List.mem_filter.mpr ⟨?_, ?_⟩
    · exact allocSlices_scene_mem _ _ _ _ _ _ _ _ _ hscene
    · rw [Bool.not_eq_true', List.any_eq_false]
      intro r hr
      obtain ⟨hrs, hrnone⟩ := List.mem_filter.mp hr
      have ho_mem : o ∈ s.slices := List.mem_of_find?_eq_some hold
      have hoid : o.id = idv := by simpa using List.find?_some hold
      simp only [beq_iff_eq]
      intro hconeq
      by_cases hro : r = o
      · subst hro
        rw [hoid, hfind'] at hrnone
        simp at hrnone
      · have hsym : Symmetric (fun (a b : SliceData α) => a.container ≠ b.container) :=
          fun _ _ hxy he => hxy he.symm
        exact (List.Pairwise.forall hsym hinj hrs ho_mem hro) hconeq

/-- Claim C6: deferred removal — an id present in the committed registry but
absent from the newly accepted dataset stays in the registry, unchanged and
attached to the scene, while the transition is in flight; only when the
timeline completes is its entry dropped from the registry and its container
removed from the scene. -/
theorem C6_deferred_removal {α : Type} [LinearOrderedField α] (s : ChartState α)
    (d : List (DonutChartData α)) (idv : SliceId) (o : SliceData α)
    (hidle : s.animating = false)
    (hold : s.slices.find? (fun sl => sl.id == idv) = some o)
    (habsent : ∀ dp ∈ ensureIds d, dp.id ≠ idv) :
    (updateData s d).slices = s.slices ∧
    (o.container ∈ s.scene → o.container ∈ (updateData s d).scene) ∧
    (completeTimeline (updateData s d)).slices.find? (fun q => q.id == idv) = none ∧
    o.container ∉ (completeTimeline (updateData s d)).scene := by
  have hnone : (newSlicesOf s d).1.find? (fun q => q.id == idv) = none :=
    allocSlices_find_none (ensureIds d) s.slices s.endAngle (s.endAngle - s.startAngle) idv
      (angleData (ensureIds d) (totalValue (ensureIds d))) s.startAngle s.nextHandle s.scene
      (angleData_forall_ne (ensureIds d) _ idv habsent)
  have ho_mem : o ∈ s.slices := List.mem_of_find?_eq_some hold
  have hoid : o.id = idv := by simpa using List.find?_some hold
  refine ⟨?_, ?_, ?_, ?_⟩
  · rw [updateData_idle s d hidle]
  · intro hx
    rw [updateData_idle s d hidle]
    exact allocSlices_scene_mem _ _ _ _ _ _ _ _ _ hx
  · rw [committed_slices_idle s d hidle]
    exact hnone
  · rw [committed_scene_idle s d hidle]
    intro hmem
    have hpred := (List.mem_filter.mp hmem).2
    have hremoved : o ∈ s.slices.filter (fun old =>
        ((newSlicesOf s d).1.find? (fun sl => sl.id == old.id)).isNone) := by
      refine List.mem_filter.mpr ⟨ho_mem, ?_⟩
      rw [hoid, hnone]
      rfl
    have hany : (s.slices.filter (fun old =>
        ((newSlicesOf s d).1.find? (fun sl => sl.id == old.id)).isNone)).any
          (fun r2 => r2.container == o.container) = true :=
      List.any_eq_true.mpr ⟨o, hremoved, by simp⟩
    rw [hany] at hpred
    simp at hpred

theorem C5_witness :
    (∃ sl, (completeTimeline (updateData chartQ xzData)).slices.find?
        (fun q => q.id == SliceId.str "x") = some sl ∧
      sl.container = (⟨0, 30, -1, 0, SliceId.str "x"⟩ : SliceData ℚ).container) ∧
    (⟨0, 30, -1, 0, SliceId.str "x"⟩ : SliceData ℚ).container ∈
      (completeTimeline (updateData chartQ xzData)).scene := by
  have hcs : chartQ.slices = [⟨0, 30, -1, 0, SliceId.str "x"⟩] := rfl
  have hens : ensureIds xzData = [⟨40, 1, SliceId.str "x"⟩, ⟨60, 2, SliceId.str "z"⟩] := rfl
  exact C5_owner_handle_continuity chartQ xzData (SliceId.str "x")
    ⟨0, 30, -1, 0, SliceId.str "x"⟩ rfl rfl
    ⟨⟨40, 1, SliceId.str "x"⟩, by rw [hens]; exact List.mem_cons_self _ _, rfl⟩
    (by rw [hcs]; simp)
    (by simp [show chartQ.scene = [0] from rfl])

theorem C6_witness :
    (updateData chartQ zData).slices = chartQ.slices ∧
    ((⟨0, 30, -1, 0, SliceId.str "x"⟩ : SliceData ℚ).container ∈ chartQ.scene →
      (⟨0, 30, -1, 0, SliceId.str "x"⟩ : SliceData ℚ).container ∈
        (updateData chartQ zData).scene) ∧
    (completeTimeline (updateData chartQ zData)).slices.find?
      (fun q => q.id == SliceId.str "x") = none ∧
    (⟨0, 30, -1, 0, SliceId.str "x"⟩ : SliceData ℚ).container ∉
      (completeTimeline (updateData chartQ zData)).scene := by
  have henz : ensureIds zData = [⟨40, 2, SliceId.str "z"⟩] := rfl
  exact C6_deferred_removal chartQ zData (SliceId.str "x")
    ⟨0, 30, -1, 0, SliceId.str "x"⟩ rfl rfl
    (by rw [henz]; intro dp hdp; rw [List.mem_singleton] at hdp; subst hdp; decide)
